import Mathlib

/-!
Verification development for the `next-cache-handler` repository.

The repository is a pluggable cache-storage layer: a `CacheHandler`
orchestrator (composite cache-key derivation and staleness policy), an
object-store backend (`S3Cache`, present in two variants in the source
tree: an earlier one and the current one taking an `allowCacheKeys`
filter), and a key-value backend (`RedisCache`).

The source is TypeScript; this file is a shallow embedding.  External
services are modelled explicitly:
* the object store is a list of objects (key, body, tagging string, ...);
  `listObjectsV2` is modelled as returning the full listing in a single
  page (the pagination loops in the source only accumulate pages, so the
  final key sets are unchanged);
* the JSON body of a stored entry is modelled at the type level (the
  serialised entry is carried as a value, `JSON.parse ∘ JSON.stringify`
  being the identity on the data model);
* the key-value client is modelled by the script of responses it gives to
  successive `scan` calls, and by the trace of commands issued to it;
* JavaScript string operations (`split`, `endsWith`, `slice`, ...) are
  re-implemented structurally on `String.data` so that every definition
  evaluates by `decide`/`rfl`.
-/

/-! ## JavaScript string primitives (structural, kernel-evaluable) -/

/-- JS `String.prototype.split` with a one-character separator:
`"a,b".split(',') = ["a","b"]`, `"".split(',') = [""]`. -/
def splitCharAux (sep : Char) : List Char → List Char → List String
  | [], acc => [String.mk acc.reverse]
  | c :: rest, acc =>
    if c = sep then String.mk acc.reverse :: splitCharAux sep rest []
    else splitCharAux sep rest (c :: acc)

/-- JS `s.split(sep)` for a single-character separator. -/
def jsSplit (s : String) (sep : Char) : List String :=
  splitCharAux sep s.data []

/-- JS `s.endsWith(t)`. -/
def jsEndsWith (s t : String) : Bool :=
  t.data.isSuffixOf s.data

/-- JS `s.startsWith(t)`. -/
def jsStartsWith (s t : String) : Bool :=
  t.data.isPrefixOf s.data

/-- Drop the last `n` characters of a string (used to strip a known
extension the string has been checked to end with). -/
def dropRightChars (s : String) (n : Nat) : String :=
  String.mk (s.data.take (s.data.length - n))

/-- JS `s.slice(n)` (all characters from index `n` on). -/
def jsDropChars (s : String) (n : Nat) : String :=
  String.mk (s.data.drop n)

/-- JS `Array.prototype.join(sep)`. -/
def jsJoin (sep : String) : List String → String
  | [] => ""
  | [x] => x
  | x :: y :: xs => x ++ sep ++ jsJoin sep (y :: xs)

/-- Lookup in a JS object viewed as an association list:
`data[k]`, `undefined` becoming `none`. -/
def jsLookup (data : List (String × String)) (k : String) : Option String :=
  (data.find? (fun p => p.1 == k)).map (fun p => p.2)

/-- JS `key.replace(/\.(json|html)$/, '')` — strips a final `.json` or
`.html`; note that `.rsc` is NOT in the alternation, faithful to the
source regex. -/
def stripJsonHtml (k : String) : String :=
  if jsEndsWith k ".json" then dropRightChars k 5
  else if jsEndsWith k ".html" then dropRightChars k 5
  else k

/-! ## CacheHandler (orchestrator, `src/unnamed/part_000`) -/

/-- `CacheHandler.buildCacheKey(keys, data, prefix)`, transcribed from the
source.  The reduce step returns
`${prev ? '-' : ''}${curr}=${data[curr]}` — the accumulated `prev` is
consulted only to choose the separator and is NOT prepended to the
result, exactly as in the source. -/
def buildCacheKey (keys : List String) (data : List (String × String)) (pre : String) : String :=
  if keys.length = 0 then ""
  else
    let cacheKey := keys.foldl
      (fun prev curr =>
        match jsLookup data curr with
        | none => prev
        | some v => if v == "" then prev else (if prev == "" then "" else "-") ++ curr ++ "=" ++ v)
      ""
    if cacheKey == "" then "" else pre ++ "(" ++ cacheKey ++ ")"

/-- `CacheHandler.buildCookiesCacheKey`: the cookie header is parsed by an
external collaborator into a name→value mapping (spec §1 treats the
cookie parser as a pure function); the allow-list is the static
`CacheHandler.cacheCookies`. -/
def buildCookiesCacheKey (cacheCookies : List String) (parsedCookies : List (String × String)) : String :=
  buildCacheKey cacheCookies parsedCookies "cookie"

/-- The entry metadata consulted by the staleness check
(`pageData.revalidate`, `pageData.lastModified`).  `revalidate` is a JS
number or absent; `lastModified` is epoch milliseconds. -/
structure PageMeta where
  revalidate : Option Int
  lastModified : Int
  deriving DecidableEq

/-- `CacheHandler.checkIsStaleCache`: the guard is the JS truthiness of
`pageData?.revalidate`, so an absent entry, an absent `revalidate`, or a
`revalidate` of `0` all take the `return false` path.  `Date.now()` is
the explicit `now` argument. -/
def checkIsStaleCache (now : Int) (pageData : Option PageMeta) : Bool :=
  match pageData with
  | some pd =>
    match pd.revalidate with
    | some r => if r = 0 then false else decide (pd.lastModified + r * 1000 < now)
    | none => false
  | none => false

/-- `CacheHandler.get` after the backend call: `data` is what the active
backend returned; the method returns `null` when the data is stale or
missing, and the data itself otherwise. -/
def cacheHandlerGet (now : Int) (data : Option PageMeta) : Option PageMeta :=
  if checkIsStaleCache now data || data.isNone then none else data

/-! ## Claims C2, C3, C10 -/

/-- Claim C2 (code bug, evaluation at the failing input): with the cookie
allow-list `["a", "b"]` and both cookies present, `buildCookiesCacheKey`
returns `"cookie(-b=2)"` — only the last allow-listed pair, preceded by a
stray separator — and not the claimed concatenation
`"cookie(a=1-b=2)"`.  The reduce in `buildCacheKey` discards the
accumulated string: `prev` is only used to pick the separator. -/
theorem c2_last_cookie_only_eval :
    buildCookiesCacheKey ["a", "b"] [("a", "1"), ("b", "2")] = "cookie(-b=2)" ∧
    buildCookiesCacheKey ["a", "b"] [("a", "1"), ("b", "2")] ≠ "cookie(a=1-b=2)" := by
  constructor
  · rfl
  · decide

/-- Claim C3 (counterexample): an entry with `revalidate = 0` and
`lastModified = 0` is reported NOT stale at `now = 1`, although
`now > lastModified + revalidate*1000` holds — so "for every entry
carrying a revalidate value it returns true iff now strictly exceeds the
deadline" fails at `revalidate = 0` (JS truthiness of `0`). -/
theorem c3_zero_revalidate_cex :
    checkIsStaleCache 1 (some ⟨some 0, 0⟩) = false ∧ ((0 : Int) + 0 * 1000 < 1) := by
  constructor
  · rfl
  · decide

/-- Claim C3 as amended: `checkIsStaleCache` returns `false` for a missing
entry, for an entry with no `revalidate`, and for an entry with
`revalidate = 0`; for a nonzero `revalidate` it returns `true` iff `now`
strictly exceeds `lastModified + revalidate*1000`, and at the exact
boundary the entry is not stale. -/
theorem c3_stale_boundary (now : Int) (pd : PageMeta) :
    (checkIsStaleCache now none = false) ∧
    (pd.revalidate = none → checkIsStaleCache now (some pd) = false) ∧
    (pd.revalidate = some 0 → checkIsStaleCache now (some pd) = false) ∧
    (∀ r : Int, pd.revalidate = some r → r ≠ 0 →
      (checkIsStaleCache now (some pd) = true ↔ pd.lastModified + r * 1000 < now)) ∧
    (∀ r : Int, pd.revalidate = some r → r ≠ 0 → now = pd.lastModified + r * 1000 →
      checkIsStaleCache now (some pd) = false) := by
  refine ⟨rfl, ?_, ?_, ?_, ?_⟩
  · intro h; simp [checkIsStaleCache, h]
  · intro h; simp [checkIsStaleCache, h]
  · intro r hr hr0
    simp [checkIsStaleCache, hr, hr0]
  · intro r hr hr0 hb
    simp [checkIsStaleCache, hr, hr0, hb]

/-- Witness for C3's amended theorem, at the spec's own scenario numbers:
`revalidate = 60`, `lastModified = 0` — stale at `now = 60001`, not stale
at the exact boundary `now = 60000`. -/
theorem c3_stale_boundary_w :
    checkIsStaleCache 60001 (some ⟨some 60, 0⟩) = true ∧
    checkIsStaleCache 60000 (some ⟨some 60, 0⟩) = false :=
  ⟨((c3_stale_boundary 60001 ⟨some 60, 0⟩).2.2.2.1 60 rfl (by decide)).mpr (by decide),
   (c3_stale_boundary 60000 ⟨some 60, 0⟩).2.2.2.2 60 rfl (by decide) (by decide)⟩

/-- Claim C10: an entry whose `revalidate` field is present and equal to
`0` is never reported stale, at any current time, and `CacheHandler.get`
passes such an entry through instead of turning it into a miss. -/
theorem c10_zero_revalidate_never_stale (now : Int) (pd : PageMeta)
    (h : pd.revalidate = some 0) :
    checkIsStaleCache now (some pd) = false ∧ cacheHandlerGet now (some pd) = some pd := by
  have hs : checkIsStaleCache now (some pd) = false := by simp [checkIsStaleCache, h]
  exact ⟨hs, by simp [cacheHandlerGet, hs]⟩

/-- Witness for C10 at a concrete entry and a time far past
`lastModified`. -/
theorem c10_zero_revalidate_never_stale_w :
    checkIsStaleCache 999999999 (some ⟨some 0, 0⟩) = false ∧
    cacheHandlerGet 999999999 (some ⟨some 0, 0⟩) = some ⟨some 0, 0⟩ :=
  c10_zero_revalidate_never_stale 999999999 ⟨some 0, 0⟩ rfl

/-! ## RedisCache (key-value backend, `src/unnamed/part_001`)

The Redis client is modelled by the script of responses it returns to
successive `scan` calls (each response a cursor plus a batch of matching
keys) and by the trace of commands the backend issues to it. -/

/-- One response of the client to a `scan` call. -/
structure ScanResponse where
  cursor : Nat
  keys : List String
  deriving DecidableEq

/-- Commands `RedisCache.deleteAllByKeyMatch` issues to the client.  The
`COUNT` hint passed to `scan` comes from a constants module that is not
under `src/` and does not affect which keys a scan returns, so it is not
recorded. -/
inductive RedisOp where
  | scan (cursor : Nat) (pat : String)
  | unlink (keys : List String)
  deriving DecidableEq

/-- Is the operation an `unlink`? -/
def isUnlinkOp : RedisOp → Bool
  | RedisOp.unlink _ => true
  | _ => false

/-- Is the operation a `scan`? -/
def isScanOp : RedisOp → Bool
  | RedisOp.scan _ _ => true
  | _ => false

/-- The `do { result = scan(cursor); cursor = result.cursor;
keys.push(...result.keys) } while (cursor != 0)` loop: one `scan` op per
consumed response, starting from the given cursor, stopping at the first
response whose cursor is the sentinel `0`.  A client never stops
answering; the `[]` case (script exhausted mid-loop) is outside the
theorems' hypotheses. -/
def scanLoop (pat : String) : Nat → List ScanResponse → List String × List RedisOp
  | cursor, [] => ([], [RedisOp.scan cursor pat])
  | cursor, r :: rest =>
    if r.cursor ≠ 0 then
      ((r.keys ++ (scanLoop pat r.cursor rest).1),
        RedisOp.scan cursor pat :: (scanLoop pat r.cursor rest).2)
    else (r.keys, [RedisOp.scan cursor pat])

/-- `RedisCache.deleteAllByKeyMatch(key, cacheKey)`: a truthy `cacheKey`
unlinks the single address `key//cacheKey`; otherwise scan with pattern
`key//*` from cursor `0` until the cursor returns to `0`, then one bulk
unlink over the accumulated keys when that set is non-empty
(`if (keysToDelete.length)`). -/
def redisDeleteAllByKeyMatch (key ck : String) (script : List ScanResponse) : List RedisOp :=
  if ck ≠ "" then [RedisOp.unlink [key ++ "//" ++ ck]]
  else
    let r := scanLoop (key ++ "//*") 0 script
    if r.1.length ≠ 0 then r.2 ++ [RedisOp.unlink r.1] else r.2


/-- Unfolding of one loop iteration when the returned cursor is not the
sentinel. -/
theorem scanLoop_cons_ne (pat : String) (cursor : Nat) (r : ScanResponse)
    (rest : List ScanResponse) (hr : r.cursor ≠ 0) :
    scanLoop pat cursor (r :: rest) =
      ((r.keys ++ (scanLoop pat r.cursor rest).1),
        RedisOp.scan cursor pat :: (scanLoop pat r.cursor rest).2) := by
  simp [scanLoop, hr]

/-- Unfolding of the terminating iteration (cursor back to `0`). -/
theorem scanLoop_cons_eq (pat : String) (cursor : Nat) (r : ScanResponse)
    (rest : List ScanResponse) (hr : r.cursor = 0) :
    scanLoop pat cursor (r :: rest) = (r.keys, [RedisOp.scan cursor pat]) := by
  simp [scanLoop, hr]

/-- The keys accumulated by the scan loop are the concatenation of all the
batches up to and including the terminating response. -/
theorem scanLoop_keys (pat : String) (pre : List ScanResponse) (last : ScanResponse)
    (hpre : ∀ r ∈ pre, r.cursor ≠ 0) (hlast : last.cursor = 0) :
    ∀ cursor, (scanLoop pat cursor (pre ++ [last])).1 =
      ((pre ++ [last]).map ScanResponse.keys).flatten := by
  induction pre with
  | nil =>
    intro cursor
    rw [List.nil_append, scanLoop_cons_eq pat cursor last [] hlast]
    simp
  | cons r rest ih =>
    intro cursor
    have hr : r.cursor ≠ 0 := hpre r (by simp)
    have ih' := ih (fun x hx => hpre x (by simp [hx])) r.cursor
    rw [List.cons_append, scanLoop_cons_ne pat cursor r (rest ++ [last]) hr]
    simp only [List.map_cons, List.flatten_cons]
    rw [← ih']

/-- Every operation the scan loop issues is a `scan` with the given
pattern, and there are exactly `pre.length + 1` of them. -/
theorem scanLoop_ops (pat : String) (pre : List ScanResponse) (last : ScanResponse)
    (hpre : ∀ r ∈ pre, r.cursor ≠ 0) (hlast : last.cursor = 0) :
    ∀ cursor, (∀ op ∈ (scanLoop pat cursor (pre ++ [last])).2, ∃ c, op = RedisOp.scan c pat) ∧
      (scanLoop pat cursor (pre ++ [last])).2.length = pre.length + 1 := by
  induction pre with
  | nil =>
    intro cursor
    rw [List.nil_append, scanLoop_cons_eq pat cursor last [] hlast]
    constructor
    · intro op hop
      simp at hop
      exact ⟨cursor, hop⟩
    · simp
  | cons r rest ih =>
    intro cursor
    have hr : r.cursor ≠ 0 := hpre r (by simp)
    have ih' := ih (fun x hx => hpre x (by simp [hx])) r.cursor
    rw [List.cons_append, scanLoop_cons_ne pat cursor r (rest ++ [last]) hr]
    constructor
    · intro op hop
      simp only [List.mem_cons] at hop
      rcases hop with h | h
      · exact ⟨cursor, h⟩
      · exact ih'.1 op h
    · simp only [List.length_cons, ih'.2, List.length_cons]

/-- Claim C9: with a specific cache-key suffix, `deleteAllByKeyMatch`
unlinks exactly the single address `key//cacheKey` and performs no scan;
otherwise it scans with pattern `key//*` until the cursor returns to the
sentinel `0`, accumulates all matched keys, and issues exactly one bulk
unlink over the accumulated set — as the final operation — or no unlink
at all when the accumulated set is empty. -/
theorem c9_delete_all_by_key_match (key : String) :
    (∀ ck : String, ck ≠ "" → ∀ script,
      redisDeleteAllByKeyMatch key ck script = [RedisOp.unlink [key ++ "//" ++ ck]]) ∧
    (∀ (pre : List ScanResponse) (last : ScanResponse),
      (∀ r ∈ pre, r.cursor ≠ 0) → last.cursor = 0 →
      (∀ op ∈ redisDeleteAllByKeyMatch key "" (pre ++ [last]),
        (∃ c, op = RedisOp.scan c (key ++ "//*")) ∨
          op = RedisOp.unlink (((pre ++ [last]).map ScanResponse.keys).flatten)) ∧
      ((redisDeleteAllByKeyMatch key "" (pre ++ [last])).filter isUnlinkOp).length =
        (if ((pre ++ [last]).map ScanResponse.keys).flatten = [] then 0 else 1) ∧
      (((pre ++ [last]).map ScanResponse.keys).flatten ≠ [] →
        (redisDeleteAllByKeyMatch key "" (pre ++ [last])).getLast? =
          some (RedisOp.unlink (((pre ++ [last]).map ScanResponse.keys).flatten)))) := by
  constructor
  · intro ck hck script
    simp [redisDeleteAllByKeyMatch, hck]
  · intro pre last hpre hlast
    have hkeys := scanLoop_keys (key ++ "//*") pre last hpre hlast 0
    have hops := scanLoop_ops (key ++ "//*") pre last hpre hlast 0
    have hfilter : ((scanLoop (key ++ "//*") 0 (pre ++ [last])).2.filter isUnlinkOp) = [] := by
      apply List.filter_eq_nil_iff.mpr
      intro op hop
      obtain ⟨c, rfl⟩ := hops.1 op hop
      simp [isUnlinkOp]
    have hred : redisDeleteAllByKeyMatch key "" (pre ++ [last]) =
        (if (scanLoop (key ++ "//*") 0 (pre ++ [last])).1.length ≠ 0 then
          (scanLoop (key ++ "//*") 0 (pre ++ [last])).2 ++
            [RedisOp.unlink (scanLoop (key ++ "//*") 0 (pre ++ [last])).1]
        else (scanLoop (key ++ "//*") 0 (pre ++ [last])).2) := by
      simp [redisDeleteAllByKeyMatch]
    by_cases hempty : ((pre ++ [last]).map ScanResponse.keys).flatten = []
    · have hlen0 : ¬ ((scanLoop (key ++ "//*") 0 (pre ++ [last])).1.length ≠ 0) := by
        rw [hkeys, hempty]
        simp
      have hred2 : redisDeleteAllByKeyMatch key "" (pre ++ [last]) =
          (scanLoop (key ++ "//*") 0 (pre ++ [last])).2 := by
        rw [hred, if_neg hlen0]
      refine ⟨?_, ?_, ?_⟩
      · intro op hop
        rw [hred2] at hop
        exact Or.inl (hops.1 op hop)
      · rw [hred2, hfilter, if_pos hempty]
        rfl
      · intro h
        exact absurd hempty h
    · have hlen : (scanLoop (key ++ "//*") 0 (pre ++ [last])).1.length ≠ 0 := by
        rw [hkeys]
        intro h
        exact hempty (List.length_eq_zero.mp h)
      have hred2 : redisDeleteAllByKeyMatch key "" (pre ++ [last]) =
          (scanLoop (key ++ "//*") 0 (pre ++ [last])).2 ++
            [RedisOp.unlink (scanLoop (key ++ "//*") 0 (pre ++ [last])).1] := by
        rw [hred, if_pos hlen]
      refine ⟨?_, ?_, ?_⟩
      · intro op hop
        rw [hred2, List.mem_append] at hop
        rcases hop with h | h
        · exact Or.inl (hops.1 op h)
        · simp only [List.mem_singleton] at h
          subst h
          exact Or.inr (by rw [hkeys])
      · rw [hred2, List.filter_append, hfilter, if_neg hempty]
        simp [isUnlinkOp]
      · intro _
        rw [hred2, List.getLast?_concat, hkeys]

/-- Witness for C9: (a) a concrete single-key call unlinks the single
composite address; (b) a concrete two-page scan run ends with one bulk
unlink over both batches. -/
theorem c9_delete_all_by_key_match_w :
    redisDeleteAllByKeyMatch "k" "c" [] = [RedisOp.unlink ["k//c"]] ∧
    (redisDeleteAllByKeyMatch "k" "" [⟨5, ["a"]⟩, ⟨0, ["b"]⟩]).getLast? =
      some (RedisOp.unlink ["a", "b"]) := by
  constructor
  · have h := (c9_delete_all_by_key_match "k").1 "c" (by decide) []
    simpa using h
  · have h := ((c9_delete_all_by_key_match "k").2 [⟨5, ["a"]⟩] ⟨0, ["b"]⟩
      (by decide) rfl).2.2 (by decide)
    simpa using h

/-! ## Data model of a cache entry

Modelled from the spec: the `CacheEntry` type lives in the
`next-cache-handler-common` package, which is not under `src/`; the shape
below follows spec §3 and the fields the `src/` code reads
(`value.kind`, `value.html`, `value.pageData`, `value.headers`,
`revalidate`, `tags`, `lastModified`). -/

/-- The `value` variant of a cache entry.  `kind` is the JS string tag
(`'PAGE'`, `'ROUTE'`, ...); `html` the rendered page, `pageData` the
serialised server-component payload, `headers` the response headers (the
tag header value after `toString()`). -/
structure CacheValue where
  kind : String
  html : String
  pageData : String
  headers : Option (List (String × String))
  deriving DecidableEq

/-- A cache entry as stored/serialised. -/
structure CacheEntry where
  value : Option CacheValue
  revalidate : Option Int
  tags : Option (List String)
  lastModified : Option Int
  deriving DecidableEq

/-! ## S3Cache, current variant (second document of
`src/packages/s3-cache/src/index.ts`) -/

/-- External constant `NEXT_CACHE_TAGS_HEADER` from Next.js. -/
def NEXT_CACHE_TAGS_HEADER : String := "x-next-cache-tags"

/-- External constant `NEXT_CACHE_IMPLICIT_TAG_ID` from Next.js: the
implicit path-marker carried by path-form tags. -/
def NEXT_CACHE_IMPLICIT_TAG_ID : String := "_N_T_"

/-- Source constant `TAG_PREFIX` (renamed here): the root of the indexed
object-tag keys `revalidateTagN`. -/
def TAG_MARKER : String := "revalidateTag"

/-- Source constant `PAGE_CACHE_EXTENSIONS = ['json', 'html', 'rsc']`
(the enum values carry no dot; the source tests `key.endsWith(ext)`). -/
def PAGE_CACHE_EXTENSIONS : List String := ["json", "html", "rsc"]

/-- Source constant `CHUNK_LIMIT`: the store's maximum batch-delete
size. -/
def CHUNK_LIMIT : Nat := 1000

/-- The body of a stored object: the serialised entry for `.json`
objects (serialisation modelled at the type level), raw text for
`.html`/`.rsc` objects. -/
inductive S3Body where
  | entry (e : CacheEntry)
  | text (s : String)
  deriving DecidableEq

/-- One element of a `getObjectTagging` `TagSet` (AWS makes both fields
optional). -/
structure TagPair where
  key : Option String
  value : Option String
  deriving DecidableEq

/-- A stored object: key, optional body, the raw `Tagging` string the
writer attached (if any), and the write-time attributes. -/
structure S3Obj where
  key : String
  body : Option S3Body
  tagging : Option String
  cacheControl : Option String
  contentType : Option String
  deriving DecidableEq

/-- The bucket, as the list of stored objects. -/
abbrev S3State := List S3Obj

/-- `getObject`-style lookup by exact key. -/
def findObj (s : S3State) (k : String) : Option S3Obj :=
  s.find? (fun o => o.key == k)

/-- `putObject`: idempotent overwrite of the object at the given key. -/
def putObject (s : S3State) (o : S3Obj) : S3State :=
  s.filter (fun x => x.key != o.key) ++ [o]

/-- Effect of deleting the given keys (`deleteObjects` after chunking:
the chunks partition the key list, so the final state removes exactly
these keys). -/
def removeKeys (s : S3State) (ks : List String) : S3State :=
  s.filter (fun o => !(ks.contains o.key))

/-- `listObjectsV2` with no prefix: all keys (single-page model). -/
def listAllKeys (s : S3State) : List String :=
  s.map (fun o => o.key)

/-- Does `k` lie under the prefix `p` with no further `/` after it?  This
is `listObjectsV2` with `Prefix: p` and `Delimiter: '/'` (deeper keys
are folded into common prefixes and not listed). -/
def underTopLevel (p k : String) : Bool :=
  jsStartsWith k p && !((k.data.drop p.data.length).contains '/')

/-- `listObjectsV2` with a prefix and the `/` delimiter (single-page
model). -/
def listKeysTopLevel (s : S3State) (p : String) : List String :=
  (listAllKeys s).filter (fun k => underTopLevel p k)

/-- The store's parse of one `k=v` element of a `Tagging` string
(store-side behaviour; values containing `=` keep the remainder). -/
def parseTagPair (kv : String) : TagPair :=
  match jsSplit kv '=' with
  | [] => ⟨none, none⟩
  | [k] => ⟨some k, none⟩
  | k :: v :: rest => ⟨some k, some (jsJoin "=" (v :: rest))⟩

/-- The store's parse of a `Tagging` string into the `TagSet` later
returned by `getObjectTagging`. -/
def parseTagging (s : String) : List TagPair :=
  if s == "" then [] else (jsSplit s '&').map parseTagPair

/-- `getObjectTagging`: the `TagSet` of the object at `k` (`TagSet = []`
default mirrors the source destructuring; the scan only queries listed,
existing keys). -/
def getObjectTagging (s : S3State) (k : String) : List TagPair :=
  match findObj s k with
  | some o => parseTagging (o.tagging.getD "")
  | none => []

/-- `S3Cache.buildTagKeys` on an array argument: indexed
`revalidateTagN=value` pairs joined with `&`. -/
def buildTagKeysList (tags : List String) : String :=
  if tags.length = 0 then ""
  else jsJoin "&" (tags.enum.map (fun it => TAG_MARKER ++ Nat.repr it.1 ++ "=" ++ it.2))

/-- `S3Cache.buildTagKeys` on the (optional) string argument — the tag
header value: `undefined` or `''` give `''`, otherwise the string is
split on `,` first. -/
def buildTagKeysStr (tags : Option String) : String :=
  match tags with
  | none => ""
  | some t => if t.length = 0 then "" else buildTagKeysList (jsSplit t ',')

/-- `data.value.headers?.[NEXT_CACHE_TAGS_HEADER]?.toString()` — the tag
header value of a PAGE/ROUTE entry. -/
def headerTagsString (v : CacheValue) : Option String :=
  match v.headers with
  | some hs => jsLookup hs NEXT_CACHE_TAGS_HEADER
  | none => none

/-- A named S3 error (`error.name` is all the source inspects). -/
structure S3ErrorName where
  name : String
  deriving DecidableEq

/-- Source constant `NOT_FOUND_ERROR`. -/
def NOT_FOUND_ERROR : List String := ["NotFound", "NoSuchKey"]

/-- `S3Cache.set`: compute the base input (`CacheControl` from a truthy
`revalidate`); for PAGE/ROUTE entries attach the header-derived
`Tagging` and write the `.html` object (PAGE), the `.rsc` object (PAGE
with app-router context), and the `.json` object; otherwise one `.json`
write tagged from `data.tags`.  The writes go to distinct keys, so the
concurrent `Promise.all` is modelled by applying them in push order. -/
def s3set (pageKey cacheKey : String) (data : CacheEntry) (isAppRouter : Bool)
    (s : S3State) : S3State :=
  let baseKey := pageKey ++ "/" ++ cacheKey
  let cc : Option String :=
    match data.revalidate with
    | some r => if r = 0 then none else some ("max-age=" ++ toString r)
    | none => none
  let fetchTagging : Option String :=
    match data.tags with
    | some ts => if ts.length ≠ 0 then some (buildTagKeysList ts) else none
    | none => none
  match data.value with
  | some v =>
    if v.kind == "PAGE" || v.kind == "ROUTE" then
      let ht := buildTagKeysStr (headerTagsString v)
      let tg : Option String := if ht == "" then none else some ht
      let s1 :=
        if v.kind == "PAGE" then
          putObject s ⟨baseKey ++ ".html", some (S3Body.text v.html), tg, cc, some "text/html"⟩
        else s
      let s2 :=
        if v.kind == "PAGE" && isAppRouter then
          putObject s1
            ⟨baseKey ++ ".rsc", some (S3Body.text v.pageData), tg, cc, some "text/x-component"⟩
        else s1
      putObject s2
        ⟨baseKey ++ ".json", some (S3Body.entry data), tg, cc, some "application/json"⟩
    else
      putObject s
        ⟨baseKey ++ ".json", some (S3Body.entry data), fetchTagging, cc, some "application/json"⟩
  | none =>
    putObject s
      ⟨baseKey ++ ".json", some (S3Body.entry data), fetchTagging, cc, some "application/json"⟩

/-- `S3Cache.get` against the bucket state, when the store itself is
healthy: a missing `.json` object raises the store's not-found error,
which the source catches into `null`; an object with no body gives
`null`; a `.json` body parses back to the stored entry (a non-JSON body
would make `JSON.parse` throw, uncaught). -/
def s3get (s : S3State) (pageKey cacheKey : String) : Except S3ErrorName (Option CacheEntry) :=
  match findObj s (pageKey ++ "/" ++ cacheKey ++ ".json") with
  | none => Except.ok none
  | some o =>
    match o.body with
    | none => Except.ok none
    | some (S3Body.entry e) => Except.ok (some e)
    | some (S3Body.text _) => Except.error ⟨"SyntaxError"⟩

/-- One `getObject` response from the store (only the body is read after
the error handling). -/
structure GetObjectOutput where
  body : Option S3Body
  deriving DecidableEq

/-- `S3Cache.get` as a function of the store's response to the single
`getObject({Key: pageKey/cacheKey.json})` call it issues: the `.catch`
turns a `NotFound`/`NoSuchKey` error into `null`, rethrows anything
else; then a missing body gives `null` and an entry body is parsed
back. -/
def s3getOnResponse (resp : Except S3ErrorName GetObjectOutput) :
    Except S3ErrorName (Option CacheEntry) :=
  match resp with
  | Except.error e =>
    if NOT_FOUND_ERROR.contains e.name then Except.ok none else Except.error e
  | Except.ok o =>
    match o.body with
    | none => Except.ok none
    | some (S3Body.entry e) => Except.ok (some e)
    | some (S3Body.text _) => Except.error ⟨"SyntaxError"⟩

/-- The values of the `TagSet` entries whose key starts with the
`revalidateTag` root: `TagSet.filter(({Key}) => Key?.startsWith(TAG_PREFIX)).map(({Value}) => Value || '')`. -/
def tagValuesOf (tagSet : List TagPair) : List String :=
  (tagSet.filter (fun tp =>
    match tp.key with
    | some k => jsStartsWith k TAG_MARKER
    | none => false)).map (fun tp => tp.value.getD "")

/-- Result of `S3Cache.revalidateTag` (current variant): the final bucket
state, the keys whose tag metadata was looked up, and the keys handed to
`deleteObjects`. -/
structure TagScanResult where
  finalState : S3State
  lookups : List String
  toDelete : List String
  deriving DecidableEq

/-- `S3Cache.revalidateTag(tag, _ctx, allowCacheKeys)` (current variant):
iterate the full listing; skip a key when it is empty OR when the filter
is non-empty and the key (with a final `.json`/`.html` stripped) ends
with one of the filter entries; otherwise fetch the object's tag
metadata and collect the key when the `revalidateTagN` values contain
the target tag; finally delete the collected keys.  Note there is no
path-marker branch in this variant. -/
def s3revalidateTag (tag : String) (allowCacheKeys : List String) (s : S3State) :
    TagScanResult :=
  let scanned := (listAllKeys s).foldl
    (fun (acc : List String × List String) key =>
      if key == "" ||
          (allowCacheKeys.length != 0 &&
            allowCacheKeys.any (fun a => jsEndsWith (stripJsonHtml key) a)) then acc
      else
        let tags := tagValuesOf (getObjectTagging s key)
        (acc.1 ++ [key], if tags.contains tag then acc.2 ++ [key] else acc.2))
    ([], [])
  ⟨removeKeys s scanned.2, scanned.1, scanned.2⟩

/-- `S3Cache.deleteAllByKeyMatch(pageKey, _ctx, allowCacheKeys)` (current
variant): list the top level under `pageKey/`, keep keys ending in one
of the recognised extensions, restrict by the filter when it is
non-empty (final `.json`/`.html` stripped, then suffix test), and delete
the survivors. -/
def s3deleteAllByKeyMatch (pageKey : String) (allowCacheKeys : List String) (s : S3State) :
    S3State :=
  let keysToDelete := (listKeysTopLevel s (pageKey ++ "/")).filter
    (fun key => PAGE_CACHE_EXTENSIONS.any (fun ext => jsEndsWith key ext))
  removeKeys s
    (if allowCacheKeys.length != 0 then
      keysToDelete.filter (fun key => allowCacheKeys.any (fun a => jsEndsWith (stripJsonHtml key) a))
    else keysToDelete)

/-! ## Claims C1, C4 (counterexample), C5 -/

/-- Claim C1 (code bug, evaluation at the failing input): bucket with two
tagged objects, tag `foo`, filter `["home"]`.  The claim says exactly
`page/home.json` (tagged and matching the filter) is deleted and
`page/other.json` (not matching) is untouched.  The code does the
opposite: the filter test in `revalidateTag` SKIPS matching keys, so
`page/home.json` survives (its tag metadata is not even fetched) and
`page/other.json` is deleted. -/
theorem c1_filter_inversion_eval :
    s3revalidateTag "foo" ["home"]
      [⟨"page/home.json", none, some "revalidateTag0=foo", none, none⟩,
       ⟨"page/other.json", none, some "revalidateTag0=foo", none, none⟩] =
      ⟨[⟨"page/home.json", none, some "revalidateTag0=foo", none, none⟩],
        ["page/other.json"], ["page/other.json"]⟩ := by
  decide

/-- Claim C4 (counterexample): in the current object-store variant, a tag
carrying the implicit path-marker is NOT delegated to path deletion —
the bucket scan runs and a tag-metadata lookup is performed on the
listed object, contradicting "no tag-metadata lookup happens for such a
tag". -/
theorem c4_current_variant_scans_cex :
    jsStartsWith "_N_T_/home" NEXT_CACHE_IMPLICIT_TAG_ID = true ∧
    (s3revalidateTag "_N_T_/home" [] [⟨"a.json", none, none, none, none⟩]).lookups =
      ["a.json"] := by
  constructor
  · decide
  · decide

/-- The claim's reading of "stripping the recognized extension": any of
`.json`/`.html`/`.rsc` is removed (spec-side definition, to be compared
with the source's `stripJsonHtml`, whose regex omits `.rsc`). -/
def stripRecognizedExt (k : String) : String :=
  if jsEndsWith k ".json" then dropRightChars k 5
  else if jsEndsWith k ".html" then dropRightChars k 5
  else if jsEndsWith k ".rsc" then dropRightChars k 4
  else k

/-- Claim C5 (counterexample): the object `p/a.rsc` lies under `p/`, ends
with a recognised extension, and its key with the recognised extension
stripped (`p/a`) ends with the filter entry `a` — so by the claim it
must be deleted.  The code strips only `.json`/`.html`, tests
`"p/a.rsc".endsWith("a")`, which fails, and the object survives. -/
theorem c5_rsc_not_stripped_cex :
    stripRecognizedExt "p/a.rsc" = "p/a" ∧
    jsEndsWith "p/a" "a" = true ∧
    s3deleteAllByKeyMatch "p" ["a"] [⟨"p/a.rsc", none, none, none, none⟩] =
      [⟨"p/a.rsc", none, none, none, none⟩] := by
  refine ⟨rfl, ?_, ?_⟩
  · decide
  · decide

/-- Claim C5 as amended: with a non-empty filter, `deleteAllByKeyMatch`
deletes exactly the objects whose key is listed at the top level under
`pageKey/`, ends with one of `json`/`html`/`rsc`, and — after stripping
a final `.json` or `.html` (never `.rsc`) — ends with one of the
filter's cache-key suffixes; every other object, in particular every
sibling variant whose suffix is not in the filter, still exists after
the call. -/
theorem c5_filter_semantics (p : String) (allow : List String) (s : S3State) (o : S3Obj)
    (hallow : allow.length ≠ 0) (ho : o ∈ s) :
    o ∈ s3deleteAllByKeyMatch p allow s ↔
      ¬(underTopLevel (p ++ "/") o.key = true ∧
        PAGE_CACHE_EXTENSIONS.any (fun ext => jsEndsWith o.key ext) = true ∧
        allow.any (fun a => jsEndsWith (stripJsonHtml o.key) a) = true) := by
  have hmem : o.key ∈ listAllKeys s := List.mem_map_of_mem (fun o => o.key) ho
  have hlen : (allow.length != 0) = true := by simpa using hallow
  simp only [s3deleteAllByKeyMatch, hlen, if_true, removeKeys, List.mem_filter,
    Bool.not_eq_true']
  constructor
  · intro h hcl
    rcases h with ⟨-, hnc⟩
    have : o.key ∈ (listKeysTopLevel s (p ++ "/")).filter
        (fun key => PAGE_CACHE_EXTENSIONS.any (fun ext => jsEndsWith key ext)) := by
      rw [List.mem_filter]
      refine ⟨?_, hcl.2.1⟩
      rw [listKeysTopLevel, List.mem_filter]
      exact ⟨hmem, hcl.1⟩
    have hin : o.key ∈ ((listKeysTopLevel s (p ++ "/")).filter
        (fun key => PAGE_CACHE_EXTENSIONS.any (fun ext => jsEndsWith key ext))).filter
        (fun key => allow.any (fun a => jsEndsWith (stripJsonHtml key) a)) := by
      rw [List.mem_filter]
      exact ⟨this, hcl.2.2⟩
    rw [← List.elem_iff] at hin
    rw [List.contains] at hnc
    rw [hin] at hnc
    cases hnc
  · intro h
    refine ⟨ho, ?_⟩
    rw [List.contains]
    by_contra hne
    have hin : o.key ∈ ((listKeysTopLevel s (p ++ "/")).filter
        (fun key => PAGE_CACHE_EXTENSIONS.any (fun ext => jsEndsWith key ext))).filter
        (fun key => allow.any (fun a => jsEndsWith (stripJsonHtml key) a)) := by
      rw [← List.elem_iff]
      cases he : List.elem o.key (((listKeysTopLevel s (p ++ "/")).filter
        (fun key => PAGE_CACHE_EXTENSIONS.any (fun ext => jsEndsWith key ext))).filter
        (fun key => allow.any (fun a => jsEndsWith (stripJsonHtml key) a)))
      · exact absurd he hne
      · rfl
    rw [List.mem_filter, List.mem_filter, listKeysTopLevel, List.mem_filter] at hin
    exact h ⟨hin.1.1.2, hin.1.2, hin.2⟩

/-- Witness for C5's amended theorem: a matching `.json` variant is
deleted while the theorem's condition evaluates accordingly at a
concrete bucket. -/
theorem c5_filter_semantics_w :
    ¬((⟨"p/home.json", none, none, none, none⟩ : S3Obj) ∈
        s3deleteAllByKeyMatch "p" ["home"] [⟨"p/home.json", none, none, none, none⟩]) := by
  have h := c5_filter_semantics "p" ["home"] [⟨"p/home.json", none, none, none, none⟩]
    ⟨"p/home.json", none, none, none, none⟩ (by decide) (by simp)
  intro hmem
  exact (h.mp hmem) (by decide)

/-! ## Claims C6, C7, C8 -/

/-- An overwrite is observed by a lookup at its own key. -/
theorem findObj_putObject_self (s : S3State) (o : S3Obj) :
    findObj (putObject s o) o.key = some o := by
  induction s with
  | nil => simp [findObj, putObject, List.find?]
  | cons x xs ih =>
    by_cases hx : x.key = o.key
    · simpa [findObj, putObject, hx] using ih
    · have hxb : (x.key != o.key) = true := by simp [hx]
      have hxe : (x.key == o.key) = false := by simp [hx]
      simp only [putObject, List.filter_cons, hxb, if_true]
      simp only [findObj, List.find?, hxe]
      simpa [findObj, putObject] using ih

/-- Claim C6: writing a PAGE entry with the app-router flag set and
reading it back through the same backend, with no interleaving
operations, returns the stored entry itself — so its `kind`, `html` and
serialised component payload (`pageData`) are equal to those written,
bit for bit. -/
theorem c6_page_roundtrip (pageKey cacheKey : String) (data : CacheEntry) (v : CacheValue)
    (hv : data.value = some v) (hk : v.kind = "PAGE") (isAppRouter : Bool)
    (hctx : isAppRouter = true) (s : S3State) :
    s3get (s3set pageKey cacheKey data isAppRouter s) pageKey cacheKey =
      Except.ok (some data) := by
  have hkb : (v.kind == "PAGE") = true := by simp [hk]
  simp only [s3set, hv, hkb, Bool.true_or, if_true, hctx, Bool.and_true]
  simp only [s3get]
  rw [findObj_putObject_self]

/-- Witness for C6: a concrete PAGE entry written into the empty bucket
is read back whole. -/
theorem c6_page_roundtrip_w :
    s3get
      (s3set "p" "c"
        ⟨some ⟨"PAGE", "<html>x</html>", "rsc-payload", none⟩, none, none, none⟩
        true []) "p" "c" =
      Except.ok (some ⟨some ⟨"PAGE", "<html>x</html>", "rsc-payload", none⟩, none, none, none⟩) :=
  c6_page_roundtrip "p" "c"
    ⟨some ⟨"PAGE", "<html>x</html>", "rsc-payload", none⟩, none, none, none⟩
    ⟨"PAGE", "<html>x</html>", "rsc-payload", none⟩ rfl rfl true rfl []

/-- Claim C7: `get` translates a store error named `NotFound` or
`NoSuchKey` into a `null` result without raising; it propagates every
other store error unchanged; a fetched object with no body gives `null`;
and a fetched `.json` body is parsed back to the stored entry.  (The
method issues exactly one `getObject`, for the key
`pageKey/cacheKey.json` — see `s3get`.) -/
theorem c7_get_error_handling :
    (∀ e : S3ErrorName, NOT_FOUND_ERROR.contains e.name = true →
      s3getOnResponse (Except.error e) = Except.ok none) ∧
    (∀ e : S3ErrorName, NOT_FOUND_ERROR.contains e.name = false →
      s3getOnResponse (Except.error e) = Except.error e) ∧
    (∀ o : GetObjectOutput, o.body = none → s3getOnResponse (Except.ok o) = Except.ok none) ∧
    (∀ e : CacheEntry, s3getOnResponse (Except.ok ⟨some (S3Body.entry e)⟩) =
      Except.ok (some e)) := by
  refine ⟨?_, ?_, ?_, ?_⟩
  · intro e he
    have hm : e.name ∈ NOT_FOUND_ERROR := List.elem_iff.mp he
    simp [s3getOnResponse, hm]
  · intro e he
    have hm : e.name ∉ NOT_FOUND_ERROR := by
      intro hmem
      have hc : NOT_FOUND_ERROR.contains e.name = true := List.elem_iff.mpr hmem
      rw [hc] at he
      cases he
    simp [s3getOnResponse, hm]
  · intro o hb
    simp [s3getOnResponse, hb]
  · intro e
    simp [s3getOnResponse]

/-- Witness for C7 at concrete store responses: a `NoSuchKey` error, an
unrelated `AccessDenied` error, and a body-less response. -/
theorem c7_get_error_handling_w :
    s3getOnResponse (Except.error ⟨"NoSuchKey"⟩) = Except.ok none ∧
    s3getOnResponse (Except.error ⟨"AccessDenied"⟩) = Except.error ⟨"AccessDenied"⟩ ∧
    s3getOnResponse (Except.ok ⟨none⟩) = Except.ok none :=
  ⟨c7_get_error_handling.1 ⟨"NoSuchKey"⟩ (by decide),
   c7_get_error_handling.2.1 ⟨"AccessDenied"⟩ (by decide),
   c7_get_error_handling.2.2.1 ⟨none⟩ rfl⟩

/-- Modelled from the spec: `chunkArray` lives in the
`next-cache-handler-common` package, which is not under `src/`; the spec
says the survivors are deleted "in bounded-size chunks (chunk size ≤
1000 — the store's maximum batch-delete size)".  Standard left-to-right
chunking, written with an explicit fuel argument (the list length bounds
the number of chunks) so the definition is structurally recursive and
kernel-evaluable. -/
def chunkArrayGo (n : Nat) : Nat → List String → List (List String)
  | _, [] => []
  | 0, l => [l]
  | fuel + 1, a :: as => (a :: as.take (n - 1)) :: chunkArrayGo n fuel (as.drop (n - 1))

/-- Modelled from the spec: `chunkArray(list, n)` — partition into
consecutive chunks of size at most `n` (for `n ≥ 1`). -/
def chunkArray (l : List String) (n : Nat) : List (List String) :=
  chunkArrayGo n l.length l

/-- Outcome of one settled promise (`Promise.allSettled` element). -/
inductive SettledResult (ε : Type) where
  | fulfilled
  | rejected (e : ε)

/-- Settle one promise outcome. -/
def settle {ε : Type} (r : Except ε Unit) : SettledResult ε :=
  match r with
  | Except.ok _ => SettledResult.fulfilled
  | Except.error e => SettledResult.rejected e

/-- The batch-delete calls `S3Cache.deleteObjects` issues: one
`deleteObjects` request per chunk of at most `CHUNK_LIMIT` keys.  The
`.map` creates every promise before `Promise.allSettled` awaits them, so
the calls depend only on the key list, never on each other's
outcomes. -/
def deleteObjectsCalls (keysToDelete : List String) : List (List String) :=
  chunkArray keysToDelete CHUNK_LIMIT

/-- The settled per-chunk results, for a given behaviour `send` of the
store on each batch-delete call. -/
def deleteObjectsRun {ε : Type} (send : List String → Except ε Unit)
    (keysToDelete : List String) : List (SettledResult ε) :=
  (deleteObjectsCalls keysToDelete).map (fun chunk => settle (send chunk))

/-- The overall outcome of `deleteObjects`: `Promise.allSettled` never
rejects, so the call resolves whatever the per-chunk outcomes are. -/
def deleteObjectsOutcome {ε : Type} (send : List String → Except ε Unit)
    (keysToDelete : List String) : Except ε (List (SettledResult ε)) :=
  Except.ok (deleteObjectsRun send keysToDelete)

/-- The chunks concatenate back to the input list. -/
theorem chunkArrayGo_flatten (n : Nat) :
    ∀ (fuel : Nat) (l : List String), l.length ≤ fuel →
      (chunkArrayGo n fuel l).flatten = l := by
  intro fuel
  induction fuel with
  | zero =>
    intro l hl
    have : l = [] := List.length_eq_zero.mp (Nat.le_zero.mp hl)
    subst this
    rfl
  | succ fuel ih =>
    intro l hl
    cases l with
    | nil => rfl
    | cons a as =>
      have has : (as.drop (n - 1)).length ≤ fuel := by
        have h1 : as.length + 1 ≤ fuel + 1 := by simp at hl; omega
        have h2 : (as.drop (n - 1)).length ≤ as.length := by
          simp [List.length_drop]
        omega
      simp only [chunkArrayGo, List.flatten_cons, ih (as.drop (n - 1)) has, List.cons_append]
      rw [List.take_append_drop]

/-- Every chunk has size at most `n` (for `n ≥ 1`). -/
theorem chunkArrayGo_size (n : Nat) (hn : n ≠ 0) :
    ∀ (fuel : Nat) (l : List String), l.length ≤ fuel →
      ∀ c ∈ chunkArrayGo n fuel l, c.length ≤ n := by
  intro fuel
  induction fuel with
  | zero =>
    intro l hl c hc
    have : l = [] := List.length_eq_zero.mp (Nat.le_zero.mp hl)
    subst this
    simp [chunkArrayGo] at hc
  | succ fuel ih =>
    intro l hl c hc
    cases l with
    | nil => simp [chunkArrayGo] at hc
    | cons a as =>
      simp only [chunkArrayGo, List.mem_cons] at hc
      rcases hc with h | h
      · subst h
        have : (as.take (n - 1)).length ≤ n - 1 := by
          simp [List.length_take]
        simp only [List.length_cons]
        omega
      · have has : (as.drop (n - 1)).length ≤ fuel := by
          have h1 : as.length + 1 ≤ fuel + 1 := by simp at hl; omega
          have h2 : (as.drop (n - 1)).length ≤ as.length := by
            simp [List.length_drop]
          omega
        exact ih (as.drop (n - 1)) has c h

/-- Claim C8: `deleteObjects` partitions the key list into chunks of at
most `CHUNK_LIMIT = 1000` keys, issues one batch-delete call per chunk
(the calls determined by the key list alone, so a failing chunk never
prevents a sibling chunk's call), and resolves successfully whatever the
per-chunk outcomes — `Promise.allSettled` never rejects. -/
theorem c8_delete_objects_chunked (keys : List String) :
    ((deleteObjectsCalls keys).flatten = keys) ∧
    (∀ c ∈ deleteObjectsCalls keys, c.length ≤ CHUNK_LIMIT) ∧
    (∀ (ε : Type) (send : List String → Except ε Unit),
      deleteObjectsOutcome send keys = Except.ok (deleteObjectsRun send keys) ∧
      (deleteObjectsRun send keys).length = (deleteObjectsCalls keys).length) := by
  refine ⟨?_, ?_, ?_⟩
  · exact chunkArrayGo_flatten CHUNK_LIMIT keys.length keys (Nat.le_refl _)
  · exact chunkArrayGo_size CHUNK_LIMIT (by decide) keys.length keys (Nat.le_refl _)
  · intro ε send
    exact ⟨rfl, by simp [deleteObjectsRun]⟩

/-- Witness for C8 at a concrete key list and an always-failing store:
the chunks join back to the keys, the chunk respects the limit, and the
call still resolves. -/
theorem c8_delete_objects_chunked_w :
    (deleteObjectsCalls ["k1", "k2"]).flatten = ["k1", "k2"] ∧
    ["k1", "k2"].length ≤ CHUNK_LIMIT ∧
    deleteObjectsOutcome (fun _ => Except.error "boom") ["k1", "k2"] =
      Except.ok (deleteObjectsRun (fun _ => Except.error "boom") ["k1", "k2"]) :=
  ⟨(c8_delete_objects_chunked ["k1", "k2"]).1,
   (c8_delete_objects_chunked ["k1", "k2"]).2.1 ["k1", "k2"] (by decide),
   ((c8_delete_objects_chunked ["k1", "k2"]).2.2 String (fun _ => Except.error "boom")).1⟩

/-! ## S3Cache, earlier variant (first document of
`src/packages/s3-cache/src/index.ts`)

This variant's `revalidateTag` is the one with the path-marker branch:
a tag starting with `NEXT_CACHE_IMPLICIT_TAG_ID` is stripped of the
marker and delegated to `deleteAllByKeyMatch`.  Its objects carry a
`tags` entry in the object `Metadata` (a comma-joined string) and the
serialised entry as body.  The trace of client calls (metadata fetches
and deletions) is recorded to settle "no tag-metadata lookup happens". -/

/-- The `value` of an entry as the earlier variant's scan reads it
(`value?.kind`, `value.headers?.[NEXT_CACHE_TAGS_HEADER]`). -/
structure ValueV1 where
  kind : String
  headers : Option (List (String × String))
  deriving DecidableEq

/-- The parsed `.json` body in the earlier variant. -/
structure EntryV1 where
  value : Option ValueV1
  deriving DecidableEq

/-- A stored object in the earlier variant: key, the `tags` field of the
object `Metadata` (if any), and the parsed body (if any). -/
structure ObjV1 where
  key : String
  metaTags : Option String
  body : Option EntryV1
  deriving DecidableEq

/-- The earlier variant's bucket. -/
abbrev StateV1 := List ObjV1

/-- Client calls the earlier variant's bulk operations issue:
`getObject` (which fetches the tag metadata together with the body) and
`deleteObject`. -/
inductive OpV1 where
  | metaLookup (key : String)
  | del (key : String)
  deriving DecidableEq

/-- A named S3 error for the earlier variant. -/
structure ErrV1 where
  name : String
  deriving DecidableEq

/-- Lookup by exact key in the earlier variant's bucket. -/
def findObjV1 (s : StateV1) (k : String) : Option ObjV1 :=
  s.find? (fun o => o.key == k)

/-- `deleteObject` effect (the source's `.catch` swallows not-found, so
deleting an absent key leaves the state unchanged). -/
def deleteObjectV1 (s : StateV1) (k : String) : StateV1 :=
  s.filter (fun o => o.key != k)

/-- All keys of the earlier variant's bucket (single-page
`listObjectsV2` with no prefix). -/
def listAllKeysV1 (s : StateV1) : List String :=
  s.map (fun o => o.key)

/-- Single-page `listObjectsV2` with `Prefix: p` and `Delimiter: '/'` for
the earlier variant. -/
def listKeysTopLevelV1 (s : StateV1) (p : String) : List String :=
  (listAllKeysV1 s).filter (fun k => underTopLevel p k)

/-- JS `key.lastIndexOf('/')` as an optional character index. -/
def lastSlashIndex (l : List Char) : Option Nat :=
  ((l.enum.filter (fun ic => ic.2 = '/')).map (fun ic => ic.1)).getLast?

/-- JS `key.substring(0, key.lastIndexOf('/'))` (clamped to `""` when
there is no slash, as `substring(0, -1)` clamps). -/
def jsDirPart (key : String) : String :=
  match lastSlashIndex key.data with
  | none => ""
  | some i => String.mk (key.data.take i)

/-- JS `key.substring(key.lastIndexOf('/') + 1)`. -/
def jsBasePart (key : String) : String :=
  match lastSlashIndex key.data with
  | none => key
  | some i => String.mk (key.data.drop (i + 1))

/-- The earlier variant's `delete(pageKey, cacheKey)`: remove the
`.json` and the `.html` objects (not-found swallowed by the
`.catch`). -/
def deleteV1Pair (s : StateV1) (pageKey cacheKey : String) : StateV1 × List OpV1 :=
  (deleteObjectV1 (deleteObjectV1 s (pageKey ++ "/" ++ cacheKey ++ ".json"))
      (pageKey ++ "/" ++ cacheKey ++ ".html"),
    [OpV1.del (pageKey ++ "/" ++ cacheKey ++ ".json"),
     OpV1.del (pageKey ++ "/" ++ cacheKey ++ ".html")])

/-- One iteration of the earlier variant's `deleteAllByKeyMatch` loop:
delete the listed key when it ends in `.json` or `.html`. -/
def deleteAllV1Step (acc : StateV1 × List OpV1) (key : String) : StateV1 × List OpV1 :=
  if key == "" then acc
  else if jsEndsWith key ".json" || jsEndsWith key ".html" then
    (deleteObjectV1 acc.1 key, acc.2 ++ [OpV1.del key])
  else acc

/-- The earlier variant's `deleteAllByKeyMatch(pageKey)`: list the top
level under `pageKey/` and delete every listed `.json`/`.html` key. -/
def deleteAllByKeyMatchV1 (pageKey : String) (s : StateV1) : StateV1 × List OpV1 :=
  (listKeysTopLevelV1 s (pageKey ++ "/")).foldl deleteAllV1Step (s, [])

/-- `value?.kind === 'PAGE' &&
value.headers?.[NEXT_CACHE_TAGS_HEADER]?.toString()?.split(',').includes(tag)`
(optional chaining short-circuits the whole chain). -/
def v1PageHeaderHasTag (e : EntryV1) (tag : String) : Bool :=
  match e.value with
  | some v =>
    if v.kind == "PAGE" then
      match v.headers with
      | some hs =>
        match jsLookup hs NEXT_CACHE_TAGS_HEADER with
        | some hv => (jsSplit hv ',').contains tag
        | none => false
      | none => false
    else false
  | none => false

/-- One iteration of the earlier variant's tag scan: `getObject` the
listed key (NOT wrapped in a `.catch`, so a missing key raises an
uncaught not-found error); delete when the `tags` metadata contains the
target tag; otherwise, for a `.json` key with a body, delete when the
parsed entry is a PAGE whose tag header contains the target tag. -/
def revalidateTagV1Step (tag : String) (acc : StateV1 × List OpV1) (key : String) :
    Except ErrV1 (StateV1 × List OpV1) :=
  if key == "" then Except.ok acc
  else
    match findObjV1 acc.1 key with
    | none => Except.error ⟨"NoSuchKey"⟩
    | some o =>
      let ops := acc.2 ++ [OpV1.metaLookup key]
      let tags := o.metaTags.getD ""
      if tags != "" && (jsSplit tags ',').contains tag then
        Except.ok ((deleteV1Pair acc.1 (jsDirPart key) (stripJsonHtml (jsBasePart key))).1,
          ops ++ (deleteV1Pair acc.1 (jsDirPart key) (stripJsonHtml (jsBasePart key))).2)
      else
        match o.body with
        | some e =>
          if jsEndsWith key ".json" && v1PageHeaderHasTag e tag then
            Except.ok ((deleteV1Pair acc.1 (jsDirPart key) (stripJsonHtml (jsBasePart key))).1,
              ops ++ (deleteV1Pair acc.1 (jsDirPart key) (stripJsonHtml (jsBasePart key))).2)
          else Except.ok (acc.1, ops)
        | none => Except.ok (acc.1, ops)

/-- The earlier variant's `revalidateTag(tag)`: a tag that starts with
the implicit path-marker is stripped of it (`tag.slice(markerLength)`)
and delegated to `deleteAllByKeyMatch`; any other tag runs the
full-bucket scan. -/
def revalidateTagV1 (tag : String) (s : StateV1) : Except ErrV1 (StateV1 × List OpV1) :=
  if jsStartsWith tag NEXT_CACHE_IMPLICIT_TAG_ID then
    Except.ok (deleteAllByKeyMatchV1 (jsDropChars tag NEXT_CACHE_IMPLICIT_TAG_ID.length) s)
  else
    (listAllKeysV1 s).foldlM (revalidateTagV1Step tag) (s, [])

/-- All operations `deleteAllByKeyMatchV1` issues are deletions. -/
theorem deleteAllV1_ops_del (keys : List String) :
    ∀ init : StateV1 × List OpV1, (∀ op ∈ init.2, ∃ k, op = OpV1.del k) →
      ∀ op ∈ (keys.foldl deleteAllV1Step init).2, ∃ k, op = OpV1.del k := by
  induction keys with
  | nil => intro init hinit op hop; exact hinit op hop
  | cons key rest ih =>
    intro init hinit op hop
    refine ih (deleteAllV1Step init key) ?_ op hop
    intro op' hop'
    simp only [deleteAllV1Step] at hop'
    by_cases h0 : (key == "") = true
    · rw [if_pos h0] at hop'
      exact hinit op' hop'
    · rw [if_neg h0] at hop'
      by_cases h1 : (jsEndsWith key ".json" || jsEndsWith key ".html") = true
      · rw [if_pos h1] at hop'
        simp only [List.mem_append, List.mem_singleton] at hop'
        rcases hop' with h | h
        · exact hinit op' h
        · exact ⟨key, h⟩
      · rw [if_neg h1] at hop'
        exact hinit op' hop'

/-- Claim C4 as amended (holds of the earlier variant): for every tag
beginning with the implicit path-marker, `revalidateTag` strips the
marker and delegates to `deleteAllByKeyMatch` — the call's outcome is
exactly the delegated path deletion — and no tag-metadata lookup is
performed.  (The current variant has no such branch; see the
counterexample.) -/
theorem c4_v1_path_delegation (tag : String) (s : StateV1)
    (h : jsStartsWith tag NEXT_CACHE_IMPLICIT_TAG_ID = true) :
    revalidateTagV1 tag s =
      Except.ok (deleteAllByKeyMatchV1 (jsDropChars tag NEXT_CACHE_IMPLICIT_TAG_ID.length) s) ∧
    ∀ op ∈ (deleteAllByKeyMatchV1 (jsDropChars tag NEXT_CACHE_IMPLICIT_TAG_ID.length) s).2,
      ∀ k, op ≠ OpV1.metaLookup k := by
  constructor
  · simp [revalidateTagV1, h]
  · intro op hop k
    obtain ⟨k', hk'⟩ := deleteAllV1_ops_del
      (listKeysTopLevelV1 s (jsDropChars tag NEXT_CACHE_IMPLICIT_TAG_ID.length ++ "/"))
      (s, []) (by intro op' hop'; cases hop') op hop
    subst hk'
    intro heq
    cases heq

/-- Witness for C4's amended theorem: a concrete marker-prefixed tag on a
one-object bucket — the call deletes the object under the stripped path
and issues only the deletion. -/
theorem c4_v1_path_delegation_w :
    revalidateTagV1 "_N_T_/p" [⟨"/p/a.json", none, none⟩] =
      Except.ok ([], [OpV1.del "/p/a.json"]) := by
  have h := (c4_v1_path_delegation "_N_T_/p" [⟨"/p/a.json", none, none⟩] (by decide)).1
  rw [h]
  have he : deleteAllByKeyMatchV1 (jsDropChars "_N_T_/p" NEXT_CACHE_IMPLICIT_TAG_ID.length)
      [⟨"/p/a.json", none, none⟩] = ([], [OpV1.del "/p/a.json"]) := by decide
  rw [he]
